import Mathlib

/-!
Verification of the EassyPyAI topic-to-paragraph pipeline (`main.py`).

The Python source is shallowly embedded: Python strings are lists of
characters (`Str`), the Datamuse HTTP service is an oracle
`Api : Params → ApiResponse` mapping a request's parameters to the response
the service would give, the spaCy part-of-speech tagger is an oracle
`Str → List Token`, and `random.randint` draws are supplied by an oracle
`Nat → Nat` whose value is reduced into the requested range.  Python
exceptions (`KeyError` from an unchecked dict access, `ValueError` from
`random.randint` on an empty range) are modelled with `Except String`.
-/

deriving instance DecidableEq for Except

namespace EssayPy

/-- Python strings, modelled as lists of characters. -/
abbrev Str := List Char

/-- Python `str.lower()` (ASCII case mapping suffices for this program). -/
def pyLower (s : Str) : Str := s.map Char.toLower

/-- Worker for `pySplit`: `acc` holds the current token reversed. -/
def pySplitAux : List Char → List Char → List Str
  | [], acc => if acc.isEmpty then [] else [acc.reverse]
  | c :: cs, acc =>
    if c.isWhitespace then
      if acc.isEmpty then pySplitAux cs [] else acc.reverse :: pySplitAux cs []
    else pySplitAux cs (c :: acc)

/-- Python `str.split()` with no argument: split on runs of whitespace,
dropping empty tokens. -/
def pySplit (s : Str) : List Str := pySplitAux s []

/-- Python `str.capitalize()`: the first character is uppercased and every
later character is lowercased. -/
def pyCapitalize : Str → Str
  | [] => []
  | c :: cs => c.toUpper :: cs.map Char.toLower

/-- Python `sep.join(ws)` for a one-character separator `sep`. -/
def str_join (sep : Char) : List Str → Str
  | [] => []
  | [w] => w
  | w :: ws => w ++ sep :: str_join sep ws

/-- `STOP_WORDS` from `main.py` line 20 (a Python `set`, used only for
membership tests, so a list is an adequate model). -/
def STOP_WORDS : List Str :=
  ["the".toList, "a".toList, "an".toList, "and".toList, "of".toList,
   "in".toList, "on".toList, "at".toList, "to".toList, "is".toList,
   "for".toList]

/-- `clean_topic_input` (lines 31-37): lowercase, split on whitespace, and
keep the tokens that are not stop words. -/
def clean_topic_input (topic_sentence : Str) : List Str :=
  let words := pySplit (pyLower topic_sentence)
  words.filter (fun word => decide (word ∉ STOP_WORDS))

/-- One JSON record returned by the Datamuse service.  Only the `word` field
is ever consumed; `none` models a record without a `word` key. -/
structure Item where
  word : Option Str
deriving DecidableEq

/-- An HTTP response from the Datamuse service: status code and decoded
JSON body. -/
structure ApiResponse where
  status_code : Nat
  body : List Item
deriving DecidableEq

/-- The query parameters the program sends to the Datamuse endpoint.  The
sequential branch of `determine_topics` builds the `rel_trg` query by string
interpolation and the threaded branch by a params dict; both denote the same
single-parameter request, so both are represented by the same `Params`
value. -/
structure Params where
  ml : Option Str
  max : Option Nat
  sp : Option Str
  rel_trg : Option Str
deriving DecidableEq

/-- The external Datamuse service, as a deterministic oracle from request
parameters to the response. -/
abbrev Api := Params → ApiResponse

/-- `fetch_api_data` (lines 22-29): body on a 200 response, `[]` otherwise. -/
def fetch_api_data (api : Api) (params : Params) : List Item :=
  let response := api params
  if response.status_code = 200 then response.body else []

/-- The list comprehension `[item['word'] for item in data]` used by
`determine_topics` (lines 48 and 55): the dict access is unchecked, so a
record without a `word` key raises `KeyError`. -/
def extract_words : List Item → Except String (List Str)
  | [] => .ok []
  | item :: rest =>
    match item.word with
    | some w => (extract_words rest).map (fun ws => w :: ws)
    | none => .error "KeyError: word"

/-- The parameters of a `rel_trg` (trigger-relation) query for one word. -/
def rel_trg_params (word : Str) : Params := ⟨none, none, none, some word⟩

/-- One iteration of the sequential loop of `determine_topics`
(lines 50-58): on a 200 response add the extracted words to the set, on any
other status log and continue with the set unchanged. -/
def determine_topics_seq_step (api : Api) (topics : Finset Str) (word : Str) :
    Except String (Finset Str) :=
  let response := api (rel_trg_params word)
  if response.status_code = 200 then
    (extract_words response.body).map (fun ws => topics ∪ ws.toFinset)
  else
    .ok topics

/-- One `as_completed` iteration of the threaded branch of
`determine_topics` (lines 44-48): `fetch_api_data` already maps a
non-success response to `[]`. -/
def determine_topics_thr_step (api : Api) (topics : Finset Str) (word : Str) :
    Except String (Finset Str) :=
  (extract_words (fetch_api_data api (rel_trg_params word))).map
    (fun ws => topics ∪ ws.toFinset)

/-- The sequential loop of `determine_topics`, accumulating into `topics`. -/
def determine_topics_seq (api : Api) : Finset Str → List Str → Except String (Finset Str)
  | topics, [] => .ok topics
  | topics, word :: words =>
    match determine_topics_seq_step api topics word with
    | .ok topics2 => determine_topics_seq api topics2 words
    | .error e => .error e

/-- The threaded loop of `determine_topics`, consuming futures in the order
`as_completed` yields them. -/
def determine_topics_thr (api : Api) : Finset Str → List Str → Except String (Finset Str)
  | topics, [] => .ok topics
  | topics, word :: words =>
    match determine_topics_thr_step api topics word with
    | .ok topics2 => determine_topics_thr api topics2 words
    | .error e => .error e

/-- `determine_topics` (lines 39-60).  `completion_order` is the order in
which `as_completed` yields the futures of the threaded branch; it is a
permutation of `words`.  The source returns `list(topics)` whose order is
unspecified, so the result is kept as the set itself. -/
def determine_topics (api : Api) (words : List Str) (use_threads : Bool)
    (completion_order : List Str) : Except String (Finset Str) :=
  if use_threads then determine_topics_thr api ∅ completion_order
  else determine_topics_seq api ∅ words

/-- The params dict built by `get_words_by_topic` (lines 75-77):
`{"ml": topic_word, "max": max_words}` plus `"sp": f"*{part_of_speech}"`
when a part-of-speech filter is given. -/
def gw_params (topic_word : Str) (part_of_speech : Option Str) (max_words : Nat) : Params :=
  ⟨some topic_word, some max_words, part_of_speech.map (fun p => '*' :: p), none⟩

/-- `get_words_by_topic` (lines 71-90): fetch words for a topic, optionally
filtered by part of speech; entries without a `word` field are dropped; a
non-success response yields `[]`.  Python defaults: `part_of_speech=None`,
`max_words=10`, `use_threads=False`. -/
def get_words_by_topic (api : Api) (topic_word : Str) (part_of_speech : Option Str)
    (max_words : Nat) (use_threads : Bool) : List Str :=
  let params := gw_params topic_word part_of_speech max_words
  if use_threads then
    (fetch_api_data api params).filterMap Item.word
  else
    let response := api params
    if response.status_code = 200 then
      response.body.filterMap Item.word
    else
      []

/-- One token of the spaCy document: surface text and coarse
part-of-speech tag (`token.text`, `token.pos_`). -/
structure Token where
  text : Str
  pos : String
deriving DecidableEq

/-- The `pos_map` dict of `nlp_based_sentence` (lines 102-107): its keys are
exactly `"NOUN"`, `"VERB"`, `"ADJ"`, `"ADV"`. -/
structure POSMap where
  NOUN : List Str
  VERB : List Str
  ADJ : List Str
  ADV : List Str
deriving DecidableEq

/-- Dict lookup `pos_map[k]`, returning `none` for the keys the dict does
not contain (the Python code guards every access with `k in pos_map`). -/
def POSMap.get? (m : POSMap) (k : String) : Option (List Str) :=
  if k = "NOUN" then some m.NOUN
  else if k = "VERB" then some m.VERB
  else if k = "ADJ" then some m.ADJ
  else if k = "ADV" then some m.ADV
  else none

/-- Dict update `pos_map[k] = v` for a key the dict contains (a no-op for
other keys, which the source never performs). -/
def POSMap.set (m : POSMap) (k : String) (v : List Str) : POSMap :=
  if k = "NOUN" then ⟨v, m.VERB, m.ADJ, m.ADV⟩
  else if k = "VERB" then ⟨m.NOUN, v, m.ADJ, m.ADV⟩
  else if k = "ADJ" then ⟨m.NOUN, m.VERB, v, m.ADV⟩
  else if k = "ADV" then ⟨m.NOUN, m.VERB, m.ADJ, v⟩
  else m

/-- Construction of `pos_map` (lines 102-107): one `get_words_by_topic`
fetch per category, bounds 10/5/5/5, all sequential (`use_threads` is left
at its default `False`). -/
def build_pos_map (api : Api) (topic : Str) : POSMap :=
  ⟨get_words_by_topic api topic (some "n".toList) 10 false,
   get_words_by_topic api topic (some "v".toList) 5 false,
   get_words_by_topic api topic (some "adj".toList) 5 false,
   get_words_by_topic api topic (some "adv".toList) 5 false⟩

/-- `pos_fallback` (lines 110-115).  The source defines this dict of
"Default fallback words" but never reads it afterwards: it is dead code. -/
def pos_fallback : POSMap :=
  ⟨["thing".toList, "object".toList, "item".toList],
   ["does".toList, "is".toList],
   ["nice".toList, "good".toList],
   ["quickly".toList]⟩

/-- The substitution loop of `nlp_based_sentence` (lines 118-123): for each
token, if its tag is a `pos_map` key whose pool is non-empty, pop the pool's
front word, otherwise keep the token's original text.  Returns the resolved
slots together with the final state of the pools. -/
def substitute_slots (pos_map : POSMap) : List Token → List Str × POSMap
  | [] => ([], pos_map)
  | token :: rest =>
    match pos_map.get? token.pos with
    | some (w :: ws) =>
      let r := substitute_slots (pos_map.set token.pos ws) rest
      (w :: r.1, r.2)
    | some [] =>
      let r := substitute_slots pos_map rest
      (token.text :: r.1, r.2)
    | none =>
      let r := substitute_slots pos_map rest
      (token.text :: r.1, r.2)

/-- Instrumented copy of `substitute_slots` that additionally records, for
each emitted slot, which category's pool it was popped from (`none` for a
slot emitted verbatim).  Erasing the annotations recovers
`substitute_slots`. -/
def substitute_slots_annot (pos_map : POSMap) :
    List Token → List (Str × Option String) × POSMap
  | [] => ([], pos_map)
  | token :: rest =>
    match pos_map.get? token.pos with
    | some (w :: ws) =>
      let r := substitute_slots_annot (pos_map.set token.pos ws) rest
      ((w, some token.pos) :: r.1, r.2)
    | some [] =>
      let r := substitute_slots_annot pos_map rest
      ((token.text, none) :: r.1, r.2)
    | none =>
      let r := substitute_slots_annot pos_map rest
      ((token.text, none) :: r.1, r.2)

/-- The words a rendering pops from category `c`'s pool, in emission
order. -/
def words_consumed (pos_map : POSMap) (doc : List Token) (c : String) : List Str :=
  (substitute_slots_annot pos_map doc).1.filterMap
    (fun p => if p.2 = some c then some p.1 else none)

/-- `nlp_based_sentence` (lines 92-127) after the external tagger has turned
the template string into the token list `doc`: build the pools, resolve the
slots, join with single spaces and `capitalize`. -/
def nlp_based_sentence (api : Api) (doc : List Token) (topic : Str) : Str :=
  let pos_map := build_pos_map api topic
  let generated_sentence := (substitute_slots pos_map doc).1
  pyCapitalize (str_join ' ' generated_sentence)

/-- `template_sentence` (line 135). -/
def template_sentence : Str := "The [ADJ] [NOUN] [VERB] the [NOUN] [ADV].".toList

/-- `create_sentence` (lines 129-138): `use_threads` is accepted and then
ignored — the body passes the template and topic to `nlp_based_sentence`
only.  `tagger` is the external spaCy model `nlp`. -/
def create_sentence (tagger : Str → List Token) (api : Api) (topic : Str)
    (use_threads : Bool) : Str :=
  nlp_based_sentence api (tagger template_sentence) topic

/-- The loop body of `generate_paragraphs` (lines 145-153), indexed by the
draw counter `i`.  `random.randint(0, len(topics)-1)` raises `ValueError`
when `topics` is empty; otherwise the drawn index is `rand i` reduced into
range (so `topics.getD` never falls back to its default).  Each paragraph is
two sentences for the same selected topic joined by a single space. -/
def generate_paragraphs_go (tagger : Str → List Token) (api : Api) (rand : Nat → Nat)
    (topics : List Str) (use_threads : Bool) : Nat → Nat → Except String (List Str)
  | _, 0 => .ok []
  | i, k + 1 =>
    if topics.length = 0 then
      .error "ValueError: empty range for randrange() (0, 0, 0)"
    else
      let selected_topic := topics.getD (rand i % topics.length) []
      let paragraph := (List.range 2).map
        (fun _ => create_sentence tagger api selected_topic use_threads)
      match generate_paragraphs_go tagger api rand topics use_threads (i + 1) k with
      | .ok rest => .ok (str_join ' ' paragraph :: rest)
      | .error e => .error e

/-- `generate_paragraphs` (lines 140-154).  Python default:
`num_paragraphs=5`. -/
def generate_paragraphs (tagger : Str → List Token) (api : Api) (rand : Nat → Nat)
    (topics : List Str) (num_paragraphs : Nat) (use_threads : Bool) :
    Except String (List Str) :=
  generate_paragraphs_go tagger api rand topics use_threads 0 num_paragraphs

/-- A mocked service whose every response is a 404 with an empty body, so
every vocabulary pool comes back empty. -/
def api404 : Api := fun _ => ⟨404, []⟩

/-- A mocked 200 response whose body is
`[{"word": "example1"}, {"word": "example2"}]`. -/
def api_two_words : Api :=
  fun _ => ⟨200, [⟨some "example1".toList⟩, ⟨some "example2".toList⟩]⟩

/-- A mocked 200 response whose middle record lacks a `word` field. -/
def api_missing_word : Api :=
  fun _ => ⟨200, [⟨some "example1".toList⟩, ⟨none⟩, ⟨some "example2".toList⟩]⟩

/-- A mocked service answering every query with `[{"word": "topic1"}]`. -/
def api_topic1 : Api := fun _ => ⟨200, [⟨some "topic1".toList⟩]⟩

/-- A mocked service answering every query with
`[{"word": "cat"}, {"word": "dog"}]`. -/
def api_words2 : Api := fun _ => ⟨200, [⟨some "cat".toList⟩, ⟨some "dog".toList⟩]⟩

/-- A representative tagging of `template_sentence` by the external
(black-box) spaCy tagger: each bracketed placeholder is one token carrying
the indicated coarse tag, the articles are determiners and the final period
is punctuation. -/
def canonical_doc : List Token :=
  [⟨"The".toList, "DET"⟩, ⟨"[ADJ]".toList, "ADJ"⟩, ⟨"[NOUN]".toList, "NOUN"⟩,
   ⟨"[VERB]".toList, "VERB"⟩, ⟨"the".toList, "DET"⟩, ⟨"[NOUN]".toList, "NOUN"⟩,
   ⟨"[ADV]".toList, "ADV"⟩, ⟨".".toList, "PUNCT"⟩]

/-- A mocked tagger that returns `canonical_doc` for every input. -/
def tagger_c : Str → List Token := fun _ => canonical_doc

/-- A mocked tagger returning the empty document. -/
def tagger0 : Str → List Token := fun _ => []

/-- A mocked random stream that always draws 0. -/
def rand0 : Nat → Nat := fun _ => 0

/-- Counting an element is unchanged by a filter the element passes. -/
theorem count_filter_of_pos {α : Type} [BEq α] [LawfulBEq α] (p : α → Bool) (w : α)
    (hw : p w = true) : ∀ l : List α, (l.filter p).count w = l.count w := by
  intro l
  induction l with
  | nil => rfl
  | cons a l ih =>
    by_cases hab : (a == w) = true
    · have haw : a = w := eq_of_beq hab
      subst haw
      simp [List.filter_cons, hw, List.count_cons, ih]
    · by_cases ha : p a = true
      · simp [List.filter_cons, ha, List.count_cons, ih, hab]
      · simp [List.filter_cons, ha, List.count_cons, ih, hab]

/-- Claim C9: `clean_topic_input` lowercases its input, splits it on
whitespace, removes exactly the tokens that are stop words (keeping every
occurrence of every other token), preserves the relative order of the
surviving tokens, and keeps punctuation attached to tokens, as on the
spec's example sentence. -/
theorem clean_topic_input_spec :
    (∀ s w, w ∈ clean_topic_input s → w ∉ STOP_WORDS) ∧
    (∀ s, (clean_topic_input s).Sublist (pySplit (pyLower s))) ∧
    (∀ s w, w ∉ STOP_WORDS →
      (clean_topic_input s).count w = (pySplit (pyLower s)).count w) ∧
    clean_topic_input "This is a test sentence for the topic.".toList
      = ["this".toList, "test".toList, "sentence".toList, "topic.".toList] := by
  refine ⟨?_, ?_, ?_, by decide⟩
  · intro s w hw
    exact of_decide_eq_true (List.mem_filter.mp hw).2
  · intro s
    exact List.filter_sublist _
  · intro s w hw
    simp only [clean_topic_input]
    exact count_filter_of_pos (fun word => decide (word ∉ STOP_WORDS)) w (decide_eq_true hw) _

/-- Witness for claim C9 at a concrete input. -/
theorem clean_topic_input_spec_witness :
    (clean_topic_input "The quick brown fox".toList).count "quick".toList
      = (pySplit (pyLower "The quick brown fox".toList)).count "quick".toList :=
  clean_topic_input_spec.2.2.1 "The quick brown fox".toList "quick".toList (by decide)

/-- Claim C4: `get_words_by_topic` on a 200 response returns the `word`
fields of the body in response order, dropping any record without a `word`
field; on any non-success response it returns `[]`.  Both branches
(threaded and sequential) are total functions: no failure is raised to the
caller. -/
theorem get_words_by_topic_spec :
    (∀ (api : Api) topic sp mw ut, (api (gw_params topic sp mw)).status_code = 200 →
      get_words_by_topic api topic sp mw ut
        = (api (gw_params topic sp mw)).body.filterMap Item.word) ∧
    (∀ (api : Api) topic sp mw ut, (api (gw_params topic sp mw)).status_code ≠ 200 →
      get_words_by_topic api topic sp mw ut = []) ∧
    (∀ ut, get_words_by_topic api_two_words "cat".toList none 10 ut
      = ["example1".toList, "example2".toList]) ∧
    (∀ ut, get_words_by_topic api_missing_word "cat".toList none 10 ut
      = ["example1".toList, "example2".toList]) ∧
    (∀ ut, get_words_by_topic api404 "cat".toList none 10 ut = []) := by
  refine ⟨?_, ?_, ?_, ?_, ?_⟩
  · intro api topic sp mw ut h
    cases ut <;> simp [get_words_by_topic, fetch_api_data, h]
  · intro api topic sp mw ut h
    cases ut <;> simp [get_words_by_topic, fetch_api_data, h]
  · intro ut; cases ut <;> decide
  · intro ut; cases ut <;> decide
  · intro ut; cases ut <;> decide

/-- Witness for claim C4 at a concrete input. -/
theorem get_words_by_topic_spec_witness :
    get_words_by_topic api404 "dog".toList (some "n".toList) 10 true = [] :=
  get_words_by_topic_spec.2.1 api404 "dog".toList (some "n".toList) 10 true (by decide)

/-- Claim C10: `create_sentence` ignores its `use_threads` argument — both
modes are the same function — and the per-category fetches inside rendering
are always the sequential ones (`use_threads = false` in every
`get_words_by_topic` call of `build_pos_map`). -/
theorem create_sentence_ignores_threads :
    (∀ (tagger : Str → List Token) (api : Api) (topic : Str) (b : Bool),
      create_sentence tagger api topic b = create_sentence tagger api topic false) ∧
    (∀ (api : Api) (topic : Str),
      build_pos_map api topic
        = ⟨get_words_by_topic api topic (some "n".toList) 10 false,
           get_words_by_topic api topic (some "v".toList) 5 false,
           get_words_by_topic api topic (some "adj".toList) 5 false,
           get_words_by_topic api topic (some "adv".toList) 5 false⟩) :=
  ⟨fun _ _ _ _ => rfl, fun _ _ => rfl⟩

/-- The four Datamuse queries `nlp_based_sentence` issues while building
`pos_map`, in program order (lines 102-107): one per category, for any
template whatsoever. -/
def nlp_queries (topic : Str) : List Params :=
  [gw_params topic (some "n".toList) 10,
   gw_params topic (some "v".toList) 5,
   gw_params topic (some "adj".toList) 5,
   gw_params topic (some "adv".toList) 5]

/-- Counterexample to claim C5: the verb fetch bound (5) is not larger than
the adjective or adverb fetch bound (also 5), and the fetch plan is issued
for all four categories independently of the template. -/
theorem nlp_queries_bounds_counterexample :
    (nlp_queries "cat".toList).map Params.max = [some 10, some 5, some 5, some 5] ∧
    ¬ (5 > 5) := by
  exact ⟨rfl, by decide⟩

/-- Claim C5 as amended: for every topic (and hence for every template —
the template is not consulted), the engine issues exactly one fetch per
category for all four of noun, verb, adjective and adverb, with filters
`*n`, `*v`, `*adj`, `*adv` and bounds 10, 5, 5, 5; the noun bound is larger
than the other three, which are equal. -/
theorem nlp_queries_amended :
    ∀ (api : Api) (topic : Str),
      [(build_pos_map api topic).NOUN, (build_pos_map api topic).VERB,
       (build_pos_map api topic).ADJ, (build_pos_map api topic).ADV]
        = (nlp_queries topic).map
            (fun p => if (api p).status_code = 200 then (api p).body.filterMap Item.word else []) ∧
      (nlp_queries topic).map Params.max = [some 10, some 5, some 5, some 5] ∧
      (nlp_queries topic).map Params.sp
        = [some ('*' :: "n".toList), some ('*' :: "v".toList),
           some ('*' :: "adj".toList), some ('*' :: "adv".toList)] ∧
      10 > 5 := by
  intro api topic
  refine ⟨?_, rfl, rfl, by decide⟩
  simp [build_pos_map, get_words_by_topic, nlp_queries, fetch_api_data]

/-- Claim C1 (code bug): with every fetch failing (all pools empty), the
engine emits each token's original text — the `pos_fallback` defaults of
lines 110-115 exist with exactly the values the spec names but are dead
code, never injected into any pool; no default word occurs in the rendered
sentence. -/
theorem pos_fallback_never_injected :
    nlp_based_sentence api404 canonical_doc "animal".toList
      = "The [adj] [noun] [verb] the [noun] [adv] .".toList ∧
    (substitute_slots (build_pos_map api404 "animal".toList) canonical_doc).1
      = canonical_doc.map Token.text ∧
    pos_fallback
      = ⟨["thing".toList, "object".toList, "item".toList],
         ["does".toList, "is".toList],
         ["nice".toList, "good".toList],
         ["quickly".toList]⟩ ∧
    (∀ w ∈ (substitute_slots (build_pos_map api404 "animal".toList) canonical_doc).1,
      w ∉ pos_fallback.NOUN ∧ w ∉ pos_fallback.VERB ∧
      w ∉ pos_fallback.ADJ ∧ w ∉ pos_fallback.ADV) := by
  refine ⟨by decide, by decide, rfl, by decide⟩

/-- Counterexample to claim C2: calling the generator with an empty topic
set and a positive count raises (`ValueError` out of `random.randint`)
instead of producing zero paragraphs. -/
theorem generate_empty_topics_counterexample :
    generate_paragraphs tagger0 api404 rand0 [] 1 false
      = .error "ValueError: empty range for randrange() (0, 0, 0)" := rfl

/-- Claim C2 as amended: for every positive count, the Paragraph Generator
applied to an empty topic set raises the `ValueError` produced by
`random.randint` on the empty index range; it performs no validation of its
own and never returns a (zero-paragraph) result.  The empty-topic-set
condition is reported by the caller `main`, which returns before calling
the generator. -/
theorem generate_empty_topics_raises :
    ∀ (tagger : Str → List Token) (api : Api) (rand : Nat → Nat) (n : Nat) (ut : Bool),
      0 < n →
      generate_paragraphs tagger api rand [] n ut
        = .error "ValueError: empty range for randrange() (0, 0, 0)" := by
  intro tagger api rand n ut hn
  match n, hn with
  | n + 1, _ => rfl

/-- Witness for claim C2's amended theorem at a concrete input. -/
theorem generate_empty_topics_raises_witness :
    generate_paragraphs tagger_c api_words2 rand0 [] 3 true
      = .error "ValueError: empty range for randrange() (0, 0, 0)" :=
  generate_empty_topics_raises tagger_c api_words2 rand0 3 true (by decide)

/-- Mapping a function over a list maps it over the optional last element. -/
theorem getLast?_map_aux {α β : Type} (f : α → β) : ∀ l : List α,
    (l.map f).getLast? = l.getLast?.map f
  | [] => rfl
  | [_] => rfl
  | a :: b :: l => by
    show (f a :: f b :: l.map f).getLast? = _
    rw [List.getLast?_cons_cons, List.getLast?_cons_cons]
    exact getLast?_map_aux f (b :: l)

/-- The last character of a single-space join is the last character of the
last word, provided that word is non-empty. -/
theorem str_join_getLast : ∀ (ws : List Str) (w : Str), ws.getLast? = some w → w ≠ [] →
    (str_join ' ' ws).getLast? = w.getLast?
  | [], _, hlast, _ => by simp at hlast
  | [x], w, hlast, _ => by
    simp at hlast
    subst hlast
    rfl
  | x :: y :: rest, w, hlast, hw => by
    rw [List.getLast?_cons_cons] at hlast
    have ihres := str_join_getLast (y :: rest) w hlast hw
    show (x ++ ' ' :: str_join ' ' (y :: rest)).getLast? = w.getLast?
    rw [List.getLast?_append_of_ne_nil x (by simp)]
    have hwl : w.getLast? ≠ none := fun h => hw (List.getLast?_eq_none_iff.mp h)
    cases hj : str_join ' ' (y :: rest) with
    | nil => exact absurd (by rw [← ihres, hj]; rfl) hwl
    | cons a l =>
      rw [hj] at ihres
      rw [List.getLast?_cons_cons]
      exact ihres

/-- `pyCapitalize` preserves a trailing period. -/
theorem pyCapitalize_getLast : ∀ (s : Str), s.getLast? = some '.' →
    (pyCapitalize s).getLast? = some '.'
  | [], h => by simp at h
  | [c], h => by
    simp at h
    subst h
    decide
  | c :: c2 :: cs, h => by
    rw [List.getLast?_cons_cons] at h
    show (c.toUpper :: (c2 :: cs).map Char.toLower).getLast? = some '.'
    rw [List.map_cons, List.getLast?_cons_cons, ← List.map_cons, getLast?_map_aux, h]
    decide

/-- The first character of a single-space join is the first character of the
first word, provided that word is non-empty. -/
theorem str_join_head (c : Char) (cs : Str) : ∀ ws : List Str,
    (str_join ' ' ((c :: cs) :: ws)).head? = some c
  | [] => rfl
  | _ :: _ => rfl

/-- Counterexample to claim C3: a template with no trailing period renders
to a sentence with no trailing period ("hello" renders to "Hello"). -/
theorem sentence_period_counterexample :
    nlp_based_sentence api404 [⟨"hello".toList, "INTJ"⟩] "topic".toList = "Hello".toList ∧
    (nlp_based_sentence api404 [⟨"hello".toList, "INTJ"⟩] "topic".toList).getLast?
      ≠ some '.' :=
  ⟨by decide, by decide⟩

/-- Claim C3 as amended: every produced Sentence is the Python
capitalization (first character uppercased, every later character
lowercased) of the resolved slots joined by single spaces — no further
whitespace collapsing is performed; it ends with a trailing period exactly
when the last resolved slot does (e.g. when the template ends in a period
token, which is not substituted), and it begins with the uppercased first
character of the first resolved slot. -/
theorem sentence_shape :
    (∀ (api : Api) (doc : List Token) (topic : Str),
      nlp_based_sentence api doc topic
        = pyCapitalize (str_join ' ' ((substitute_slots (build_pos_map api topic) doc).1))) ∧
    (∀ (api : Api) (doc : List Token) (topic : Str) (w : Str),
      ((substitute_slots (build_pos_map api topic) doc).1).getLast? = some w →
      w.getLast? = some '.' →
      (nlp_based_sentence api doc topic).getLast? = some '.') ∧
    (∀ (api : Api) (doc : List Token) (topic : Str) (c : Char) (cs : Str),
      ((substitute_slots (build_pos_map api topic) doc).1).head? = some (c :: cs) →
      (nlp_based_sentence api doc topic).head? = some c.toUpper) := by
  refine ⟨fun _ _ _ => rfl, ?_, ?_⟩
  · intro api doc topic w hlast hdot
    have hw : w ≠ [] := by
      intro h0
      rw [h0] at hdot
      simp at hdot
    show (pyCapitalize (str_join ' ' ((substitute_slots (build_pos_map api topic) doc).1))).getLast?
      = some '.'
    apply pyCapitalize_getLast
    rw [str_join_getLast _ w hlast hw]
    exact hdot
  · intro api doc topic c cs hhead
    show (pyCapitalize (str_join ' ' ((substitute_slots (build_pos_map api topic) doc).1))).head?
      = some c.toUpper
    generalize hsl : (substitute_slots (build_pos_map api topic) doc).1 = slots at hhead ⊢
    cases slots with
    | nil => simp at hhead
    | cons s rest =>
      obtain rfl : s = c :: cs := by simpa using hhead
      have hj := str_join_head c cs rest
      generalize hje : str_join ' ' ((c :: cs) :: rest) = j at hj ⊢
      cases j with
      | nil => simp at hj
      | cons a t =>
        obtain rfl : a = c := by simpa using hj
        rfl

/-- Witness for claim C3's amended theorem at a concrete input: the
canonical template's rendering under all-empty pools ends with a period and
starts with the capitalized first character. -/
theorem sentence_shape_witness :
    (nlp_based_sentence api404 canonical_doc "animal".toList).getLast? = some '.' ∧
    (nlp_based_sentence api404 canonical_doc "animal".toList).head? = some 'T'.toUpper :=
  ⟨sentence_shape.2.1 api404 canonical_doc "animal".toList ".".toList (by decide) (by decide),
   sentence_shape.2.2 api404 canonical_doc "animal".toList 'T' "he".toList (by decide)⟩

/-- Updating a key the pool dict contains and reading it back yields the
update. -/
theorem POSMap.get?_set_self (m : POSMap) (k : String) (v l : List Str)
    (h : m.get? k = some l) : (m.set k v).get? k = some v := by
  by_cases h1 : k = "NOUN"
  · subst h1; simp [POSMap.get?, POSMap.set]
  · by_cases h2 : k = "VERB"
    · subst h2; simp [POSMap.get?, POSMap.set, h1]
    · by_cases h3 : k = "ADJ"
      · subst h3; simp [POSMap.get?, POSMap.set, h1, h2]
      · by_cases h4 : k = "ADV"
        · subst h4; simp [POSMap.get?, POSMap.set, h1, h2, h3]
        · exfalso
          simp [POSMap.get?, h1, h2, h3, h4] at h

/-- Updating one key leaves every other key's pool unchanged. -/
theorem POSMap.get?_set_other (m : POSMap) (k : String) (v : List Str) (c : String)
    (h : c ≠ k) : (m.set k v).get? c = m.get? c := by
  unfold POSMap.set
  split_ifs with h1 h2 h3 h4
  · subst h1; simp [POSMap.get?, h]
  · subst h2; simp [POSMap.get?, h]
  · subst h3; simp [POSMap.get?, h]
  · subst h4; simp [POSMap.get?, h]
  · rfl

/-- Erasing the provenance annotations recovers the source's substitution
loop exactly (both the emitted slots and the final pools). -/
theorem substitute_slots_annot_erase : ∀ (doc : List Token) (m : POSMap),
    (substitute_slots_annot m doc).1.map Prod.fst = (substitute_slots m doc).1 ∧
    (substitute_slots_annot m doc).2 = (substitute_slots m doc).2
  | [], _ => ⟨rfl, rfl⟩
  | t :: doc, m => by
    rcases hm : m.get? t.pos with _ | (_ | ⟨w, ws⟩)
    · have ih := substitute_slots_annot_erase doc m
      simp [substitute_slots, substitute_slots_annot, hm, ih.1, ih.2]
    · have ih := substitute_slots_annot_erase doc m
      simp [substitute_slots, substitute_slots_annot, hm, ih.1, ih.2]
    · have ih := substitute_slots_annot_erase doc (m.set t.pos ws)
      simp [substitute_slots, substitute_slots_annot, hm, ih.1, ih.2]

/-- Sequential consumption: the words a rendering pops from a category's
pool form a front prefix of that pool, and the pool left over is the
matching suffix. -/
theorem words_consumed_take : ∀ (doc : List Token) (m : POSMap) (c : String),
    ∃ k, words_consumed m doc c = ((m.get? c).getD []).take k ∧
      ((substitute_slots_annot m doc).2.get? c).getD []
        = ((m.get? c).getD []).drop k
  | [], m, c => ⟨0, by simp [words_consumed, substitute_slots_annot],
      by simp [substitute_slots_annot]⟩
  | t :: doc, m, c => by
    rcases hm : m.get? t.pos with _ | (_ | ⟨w, ws⟩)
    · obtain ⟨k, h1, h2⟩ := words_consumed_take doc m c
      have hstep1 : words_consumed m (t :: doc) c = words_consumed m doc c := by
        simp [words_consumed, substitute_slots_annot, hm]
      have hstep2 : (substitute_slots_annot m (t :: doc)).2
          = (substitute_slots_annot m doc).2 := by
        simp [substitute_slots_annot, hm]
      exact ⟨k, hstep1 ▸ h1, hstep2 ▸ h2⟩
    · obtain ⟨k, h1, h2⟩ := words_consumed_take doc m c
      have hstep1 : words_consumed m (t :: doc) c = words_consumed m doc c := by
        simp [words_consumed, substitute_slots_annot, hm]
      have hstep2 : (substitute_slots_annot m (t :: doc)).2
          = (substitute_slots_annot m doc).2 := by
        simp [substitute_slots_annot, hm]
      exact ⟨k, hstep1 ▸ h1, hstep2 ▸ h2⟩
    · by_cases ht : t.pos = c
      · subst ht
        obtain ⟨k, h1, h2⟩ := words_consumed_take doc (m.set t.pos ws) t.pos
        have hset : (m.set t.pos ws).get? t.pos = some ws :=
          POSMap.get?_set_self m t.pos ws (w :: ws) hm
        rw [hset] at h1 h2
        refine ⟨k + 1, ?_, ?_⟩
        · have hstep1 : words_consumed m (t :: doc) t.pos
              = w :: words_consumed (m.set t.pos ws) doc t.pos := by
            simp [words_consumed, substitute_slots_annot, hm]
          rw [hstep1, h1, hm]
          simp
        · have hstep2 : (substitute_slots_annot m (t :: doc)).2
              = (substitute_slots_annot (m.set t.pos ws) doc).2 := by
            simp [substitute_slots_annot, hm]
          rw [hstep2, h2, hm]
          simp
      · obtain ⟨k, h1, h2⟩ := words_consumed_take doc (m.set t.pos ws) c
        have hset : (m.set t.pos ws).get? c = m.get? c :=
          POSMap.get?_set_other m t.pos ws c (fun h => ht h.symm)
        rw [hset] at h1 h2
        have hstep1 : words_consumed m (t :: doc) c
            = words_consumed (m.set t.pos ws) doc c := by
          simp [words_consumed, substitute_slots_annot, hm, ht]
        have hstep2 : (substitute_slots_annot m (t :: doc)).2
            = (substitute_slots_annot (m.set t.pos ws) doc).2 := by
          simp [substitute_slots_annot, hm]
        exact ⟨k, hstep1 ▸ h1, hstep2 ▸ h2⟩

/-- Claim C7: the template is walked slot by slot — a token whose tag has
no pool (a literal slot) or whose pool is exhausted is emitted verbatim; a
token whose tag has a non-empty pool pops that pool's front word; the words
popped from a category's pool during one sentence are a front prefix of the
pool, so (the pool being duplicate-free) no word is ever reused within one
sentence.  The annotated walker is an erasure-faithful instrumentation of
the source's loop. -/
theorem substitution_walk :
    (∀ (m : POSMap) (doc : List Token),
      (substitute_slots_annot m doc).1.map Prod.fst = (substitute_slots m doc).1) ∧
    (∀ (m : POSMap) (t : Token) (doc : List Token),
      m.get? t.pos = none ∨ m.get? t.pos = some [] →
      (substitute_slots m (t :: doc)).1 = t.text :: (substitute_slots m doc).1) ∧
    (∀ (m : POSMap) (t : Token) (doc : List Token) (w : Str) (ws : List Str),
      m.get? t.pos = some (w :: ws) →
      (substitute_slots m (t :: doc)).1 = w :: (substitute_slots (m.set t.pos ws) doc).1) ∧
    (∀ (m : POSMap) (doc : List Token) (c : String),
      ((m.get? c).getD []).Nodup →
      (words_consumed m doc c).Nodup ∧
      ∃ k, words_consumed m doc c = ((m.get? c).getD []).take k) := by
  refine ⟨fun m doc => (substitute_slots_annot_erase doc m).1, ?_, ?_, ?_⟩
  · rintro m t doc (h | h) <;> simp [substitute_slots, h]
  · intro m t doc w ws h
    simp [substitute_slots, h]
  · intro m doc c hnd
    obtain ⟨k, h1, _⟩ := words_consumed_take doc m c
    exact ⟨h1 ▸ ((List.take_sublist k _).nodup hnd), k, h1⟩

/-- Witness for claim C7 at concrete inputs: a punctuation token is
emitted verbatim, a noun token pops the front of the noun pool, and the
nouns consumed over a two-noun document are a duplicate-free prefix of the
noun pool. -/
theorem substitution_walk_witness :
    (substitute_slots pos_fallback [⟨"x".toList, "PUNCT"⟩]).1
      = "x".toList :: (substitute_slots pos_fallback []).1 ∧
    (substitute_slots pos_fallback [⟨"[NOUN]".toList, "NOUN"⟩]).1
      = "thing".toList ::
        (substitute_slots (pos_fallback.set "NOUN" ["object".toList, "item".toList]) []).1 ∧
    ((words_consumed pos_fallback [⟨"a".toList, "NOUN"⟩, ⟨"b".toList, "NOUN"⟩] "NOUN").Nodup ∧
      ∃ k, words_consumed pos_fallback [⟨"a".toList, "NOUN"⟩, ⟨"b".toList, "NOUN"⟩] "NOUN"
        = ((pos_fallback.get? "NOUN").getD []).take k) :=
  ⟨substitution_walk.2.1 pos_fallback ⟨"x".toList, "PUNCT"⟩ [] (Or.inl (by decide)),
   substitution_walk.2.2.1 pos_fallback ⟨"[NOUN]".toList, "NOUN"⟩ []
     "thing".toList ["object".toList, "item".toList] (by decide),
   substitution_walk.2.2.2 pos_fallback [⟨"a".toList, "NOUN"⟩, ⟨"b".toList, "NOUN"⟩]
     "NOUN" (by decide)⟩

/-- The outcome of one word's trigger-relation query contribution. -/
def word_result (api : Api) (word : Str) : Except String (List Str) :=
  extract_words (fetch_api_data api (rel_trg_params word))

/-- Whether one word's contribution extracts without a `KeyError`. -/
def word_ok (api : Api) (word : Str) : Bool :=
  match word_result api word with
  | .ok _ => true
  | .error _ => false

/-- The set of topic words one word's query contributes. -/
def word_set (api : Api) (word : Str) : Finset Str :=
  match word_result api word with
  | .ok ws => ws.toFinset
  | .error _ => ∅

/-- The only error `extract_words` ever produces is the missing-key one. -/
theorem extract_words_error : ∀ (d : List Item) (e : String),
    extract_words d = .error e → e = "KeyError: word"
  | [], e => by simp [extract_words]
  | item :: rest, e => by
    rcases hi : item.word with _ | w
    · intro h
      simp [extract_words, hi] at h
      exact h.symm
    · intro h
      simp only [extract_words, hi] at h
      rcases hr : extract_words rest with e2 | ws
      · rw [hr] at h
        simp [Except.map] at h
        exact h ▸ extract_words_error rest e2 hr
      · rw [hr] at h
        simp [Except.map] at h

/-- Characterization of one threaded iteration by the word's outcome. -/
theorem thr_step_eq (api : Api) (t : Finset Str) (w : Str) :
    determine_topics_thr_step api t w
      = if word_ok api w then .ok (t ∪ word_set api w)
        else .error "KeyError: word" := by
  unfold determine_topics_thr_step word_ok word_set
  rcases hr : word_result api w with e | ws
  · unfold word_result at hr
    rw [hr]
    simp [Except.map, extract_words_error _ e hr]
  · unfold word_result at hr
    rw [hr]
    simp [Except.map]

/-- A sequential iteration and a threaded iteration agree: on a non-200
response the sequential branch skips the word while the threaded branch
extracts from the empty `fetch_api_data` result, adding the empty set. -/
theorem seq_step_eq_thr_step (api : Api) (t : Finset Str) (w : Str) :
    determine_topics_seq_step api t w = determine_topics_thr_step api t w := by
  unfold determine_topics_seq_step determine_topics_thr_step fetch_api_data
  by_cases h : (api (rel_trg_params w)).status_code = 200
  · simp [h]
  · simp [h, extract_words, Except.map]

/-- The two accumulation loops of `determine_topics` agree pointwise. -/
theorem seq_loop_eq_thr_loop (api : Api) : ∀ (l : List Str) (t : Finset Str),
    determine_topics_seq api t l = determine_topics_thr api t l
  | [], _ => rfl
  | w :: l, t => by
    simp only [determine_topics_seq, determine_topics_thr, seq_step_eq_thr_step]
    rcases hs : determine_topics_thr_step api t w with e | t2
    · rfl
    · exact seq_loop_eq_thr_loop api l t2

/-- Closed form of the threaded loop: an error exactly when some word's
response contains a record without a `word` key, otherwise the union of
every word's contribution — a form visibly invariant under reordering. -/
theorem thr_loop_canon (api : Api) : ∀ (l : List Str) (t : Finset Str),
    determine_topics_thr api t l
      = if l.all (word_ok api) then .ok (t ∪ l.toFinset.biUnion (word_set api))
        else .error "KeyError: word"
  | [], t => by simp [determine_topics_thr]
  | w :: l, t => by
    simp only [determine_topics_thr, thr_step_eq]
    by_cases hw : word_ok api w = true
    · simp only [hw, if_true]
      rw [thr_loop_canon api l (t ∪ word_set api w)]
      by_cases hl : l.all (word_ok api) = true
      · simp only [List.all_cons, hw, hl, Bool.true_and, if_true]
        rw [List.toFinset_cons, Finset.biUnion_insert, ← Finset.union_assoc]
      · simp [List.all_cons, hw, hl]
    · simp [List.all_cons, hw]

/-- `List.all` is invariant under permutation. -/
theorem all_perm {α : Type} (p : α → Bool) {l l' : List α} (h : l.Perm l') :
    l.all p = l'.all p := by
  induction h with
  | nil => rfl
  | cons x _ ih => simp [List.all_cons, ih]
  | swap x y l => simp [List.all_cons, Bool.and_left_comm]
  | trans _ _ ih1 ih2 => rw [ih1, ih2]

/-- Claim C6: for every fixed assignment of service responses, the
sequential and the threaded branches of `determine_topics` produce the same
final result for any completion order of the futures; on the spec's example
(tokens `word1`, `word2`, every response `[{"word": "topic1"}]`) both modes
yield the topic set `{topic1}`. -/
theorem determine_topics_mode_equiv :
    (∀ (api : Api) (words completion_order : List Str),
      words.Perm completion_order →
      determine_topics api words true completion_order
        = determine_topics api words false completion_order) ∧
    determine_topics api_topic1 ["word1".toList, "word2".toList] false []
      = .ok {"topic1".toList} ∧
    determine_topics api_topic1 ["word1".toList, "word2".toList] true
        ["word2".toList, "word1".toList]
      = .ok {"topic1".toList} := by
  refine ⟨?_, by decide, by decide⟩
  intro api words order hperm
  show determine_topics_thr api ∅ order = determine_topics_seq api ∅ words
  rw [seq_loop_eq_thr_loop, thr_loop_canon, thr_loop_canon,
    all_perm (word_ok api) hperm, List.toFinset_eq_of_perm words order hperm]

/-- Witness for claim C6 at a concrete input. -/
theorem determine_topics_mode_equiv_witness :
    determine_topics api_words2 ["word1".toList, "word2".toList] true
        ["word2".toList, "word1".toList]
      = determine_topics api_words2 ["word1".toList, "word2".toList] false
        ["word2".toList, "word1".toList] :=
  determine_topics_mode_equiv.1 api_words2
    ["word1".toList, "word2".toList] ["word2".toList, "word1".toList] (by decide)

/-- Peeling the first index off a map over `List.range (k + 1)` with a
shifted argument. -/
theorem cons_map_range_succ {β : Type} (F : Nat → β) (k i : Nat) :
    F i :: (List.range k).map (fun j => F (i + 1 + j))
      = (List.range (k + 1)).map (fun j => F (i + j)) := by
  rw [List.range_succ_eq_map, List.map_cons, List.map_map]
  refine congrArg₂ List.cons (by simp) (List.map_congr_left ?_)
  intro j _
  have hsucc : i + 1 + j = i + (j + 1) := by omega
  simp [Function.comp, hsucc]

/-- Closed form of the generation loop for a non-empty topic list: one
paragraph per loop index, each being two identical sentences for the
selected topic joined by one space. -/
theorem generate_go_eq (tagger : Str → List Token) (api : Api) (rand : Nat → Nat)
    (topics : List Str) (ut : Bool) (h : topics ≠ []) :
    ∀ (k i : Nat), generate_paragraphs_go tagger api rand topics ut i k
      = .ok ((List.range k).map (fun j =>
          str_join ' ' ((List.range 2).map (fun _ =>
            create_sentence tagger api (topics.getD (rand (i + j) % topics.length) []) ut)))) := by
  intro k
  induction k with
  | zero => intro i; simp [generate_paragraphs_go]
  | succ k ih =>
    intro i
    have hlen : ¬ topics.length = 0 := by simpa using h
    simp only [generate_paragraphs_go, hlen, if_false, ih (i + 1)]
    exact congrArg Except.ok (cons_map_range_succ
      (fun idx => str_join ' ' ((List.range 2).map (fun _ =>
        create_sentence tagger api (topics.getD (rand idx % topics.length) []) ut))) k i)

/-- Claim C8: for every non-empty topic list and count, the generator
returns `count` paragraphs in generation order; paragraph `i`'s topic is the
`i`-th random draw reduced into the list (so always a member of the list,
drawn with replacement), and the paragraph is exactly 2 sentences rendered
with that same topic, joined by a single space; on the spec's concrete
instance one paragraph of two identical sentences is produced. -/
theorem generate_paragraphs_structure :
    (∀ (tagger : Str → List Token) (api : Api) (rand : Nat → Nat)
      (topics : List Str) (n : Nat) (ut : Bool), topics ≠ [] →
      generate_paragraphs tagger api rand topics n ut
        = .ok ((List.range n).map (fun i =>
            str_join ' ' ((List.range 2).map (fun _ =>
              create_sentence tagger api (topics.getD (rand i % topics.length) []) ut)))) ∧
      (∀ i : Nat, topics.getD (rand i % topics.length) [] ∈ topics)) ∧
    generate_paragraphs tagger_c api_words2 rand0 ["animal".toList] 1 false
      = .ok [str_join ' '
          [create_sentence tagger_c api_words2 "animal".toList false,
           create_sentence tagger_c api_words2 "animal".toList false]] := by
  refine ⟨?_, by decide⟩
  intro tagger api rand topics n ut h
  constructor
  · simpa using generate_go_eq tagger api rand topics ut h n 0
  · intro i
    have hlt : rand i % topics.length < topics.length :=
      Nat.mod_lt _ (List.length_pos.mpr h)
    rw [List.getD_eq_getElem topics [] hlt]
    exact List.getElem_mem hlt

/-- Witness for claim C8 at a concrete input. -/
theorem generate_paragraphs_structure_witness :
    generate_paragraphs tagger_c api_words2 rand0 ["animal".toList, "pet".toList] 2 false
      = .ok ((List.range 2).map (fun i =>
          str_join ' ' ((List.range 2).map (fun _ =>
            create_sentence tagger_c api_words2
              (["animal".toList, "pet".toList].getD
                (rand0 i % (["animal".toList, "pet".toList] : List Str).length) [])
              false)))) :=
  (generate_paragraphs_structure.1 tagger_c api_words2 rand0
    ["animal".toList, "pet".toList] 2 false (by decide)).1

end EssayPy
